import Mathlib

/-!
Verification of the terranova orchestrator's core against its source.

The development shallowly embeds the Python modules `terranova/binds.py`,
`terranova/resources.py`, `terranova/commands/binds.py` and
`terranova/commands/helpers.py`.  External collaborators (the wrapped
`terraform` binary, the filesystem, the YAML/JSON-schema libraries) are
modelled as explicit inputs: each embedded function takes the outcome of
every external interaction as a parameter, so the orchestration logic
itself is translated statement by statement from the source.

Python `dict`s are modelled as association lists with insertion-order
semantics (`dictFind`, `dictInsert`, `dictUpdate` mirror lookup, `d[k] = v`
assignment and `d.update(...)`).  Python truthiness on optional strings and
lists is modelled explicitly where the source relies on it.
-/

namespace Terranova

/-! ### Python dict model -/

/-- Lookup in an insertion-ordered dict (`d.get(k)` / `d[k]`). -/
def dictFind {α : Type} : List (String × α) → String → Option α
  | [], _ => none
  | (k, v) :: rest, key => if k = key then some v else dictFind rest key

/-- Lookup with a default (`d[k]` where the key is known to exist; the
default is never reached on such inputs). -/
def dictGetD {α : Type} (d : List (String × α)) (key : String) (dflt : α) : α :=
  (dictFind d key).getD dflt

/-- Assignment `d[k] = v`: an existing key keeps its position and gets the
new value, a fresh key is appended at the end, as in a Python dict. -/
def dictInsert {α : Type} : List (String × α) → String → α → List (String × α)
  | [], k, v => [(k, v)]
  | (k', v') :: rest, k, v =>
    if k' = k then (k', v) :: rest else (k', v') :: dictInsert rest k v

/-- `d.update(adds)` / a loop of assignments, performed in list order. -/
def dictUpdate {α : Type} (d : List (String × α)) (adds : List (String × α)) :
    List (String × α) :=
  adds.foldl (fun acc kv => dictInsert acc kv.1 kv.2) d

/-- Truthiness of an optional string (`if s:` in Python): `None` and the
empty string are falsy. -/
def truthyOptStr : Option String → Bool
  | some s => !s.isEmpty
  | none => false

/-- Truthiness of an optional list (`if l:` in Python): `None` and the
empty list are falsy. -/
def truthyOptList {α : Type} : Option (List α) → Bool
  | some l => !l.isEmpty
  | none => false

/-! ### Basic dict lemmas -/

theorem dictFind_dictInsert {α : Type} (d : List (String × α)) (k key : String) (v : α) :
    dictFind (dictInsert d k v) key = if k = key then some v else dictFind d key := by
  induction d with
  | nil => simp [dictInsert, dictFind]
  | cons hd tl ih =>
    obtain ⟨k', v'⟩ := hd
    by_cases h1 : k' = k
    · subst h1
      by_cases h2 : k' = key <;> simp [dictInsert, dictFind, h2]
    · by_cases h2 : k' = key
      · subst h2
        simp [dictInsert, dictFind, h1, Ne.symm h1]
      · simp [dictInsert, dictFind, h1, h2, ih]

theorem dictFind_append {α : Type} (d₁ d₂ : List (String × α)) (key : String) :
    dictFind (d₁ ++ d₂) key =
      match dictFind d₁ key with
      | some v => some v
      | none => dictFind d₂ key := by
  induction d₁ with
  | nil => simp [dictFind]
  | cons hd tl ih =>
    obtain ⟨k, v⟩ := hd
    by_cases h : k = key <;> simp [dictFind, h, ih]

theorem dictInsert_fresh {α : Type} (d : List (String × α)) (k : String) (v : α)
    (h : dictFind d k = none) : dictInsert d k v = d ++ [(k, v)] := by
  induction d with
  | nil => simp [dictInsert]
  | cons hd tl ih =>
    obtain ⟨k', v'⟩ := hd
    by_cases hk : k' = k
    · simp [dictFind, hk] at h
    · simp [dictFind, hk] at h
      simp [dictInsert, hk, ih h]

theorem dictFind_dictUpdate {α : Type} (adds : List (String × α)) (d : List (String × α))
    (key : String) :
    dictFind (dictUpdate d adds) key =
      match (adds.filter (fun kv => kv.1 = key)).getLast? with
      | some kv => some kv.2
      | none => dictFind d key := by
  induction adds generalizing d with
  | nil => simp [dictUpdate]
  | cons hd tl ih =>
    obtain ⟨k, v⟩ := hd
    have step : dictUpdate d ((k, v) :: tl) = dictUpdate (dictInsert d k v) tl := rfl
    rw [step, ih]
    by_cases hk : k = key
    · subst hk
      have hcons : ((k, v) :: tl).filter (fun kv => kv.1 = k)
          = (k, v) :: tl.filter (fun kv => kv.1 = k) := by simp
      rw [hcons]
      cases hlast : (tl.filter (fun kv => kv.1 = k)).getLast? with
      | none =>
        simp [List.getLast?_eq_none_iff.mp hlast, dictFind_dictInsert]
      | some p =>
        have hne : (tl.filter (fun kv => kv.1 = k)) ≠ [] := by
          intro hnil
          rw [hnil] at hlast
          simp at hlast
        have hl : ((k, v) :: tl.filter (fun kv => kv.1 = k)).getLast?
            = (tl.filter (fun kv => kv.1 = k)).getLast? := by
          have h2 : (k, v) :: tl.filter (fun kv => kv.1 = k)
              = [(k, v)] ++ tl.filter (fun kv => kv.1 = k) := rfl
          rw [h2]
          exact List.getLast?_append_of_ne_nil _ hne
        simp [hl, hlast]
    · simp only [List.filter_cons, decide_eq_true_eq, hk, if_false]
      cases hlast : (tl.filter (fun kv => kv.1 = key)).getLast? with
      | none => simp [hlast, dictFind_dictInsert, hk]
      | some p => simp [hlast]

/-! ### Import resolution — `terranova/commands/helpers.py`, `extract_import_vars`

The recursive call `extract_output_var(importer.source, importer.resource)`
shells out to `terraform output -raw`; it is modelled as an explicit
`output` oracle mapping (source directory, exported name) to the value the
external tool returns. -/

/-- An entry of `manifest.imports` (`ResourcesImport` in
`terranova/resources.py`): YAML fields `from`, `import`, `as`. -/
structure ResourcesImport where
  source : String
  resource : String
  target : Option String
deriving DecidableEq, Repr

/-- The variable name an import entry binds:
`importer.target if importer.target else importer.resource` (Python
truthiness: a `None` or empty alias falls back to the exported name). -/
def importTargetName (e : ResourcesImport) : String :=
  match e.target with
  | some t => if t.isEmpty then e.resource else t
  | none => e.resource

/-- `extract_import_vars(manifest)`: iterates `manifest.imports` in
declaration order and assigns `variables[target] = output(...)` for each
entry (`if manifest.imports:` makes `None` and `[]` both skip the loop). -/
def extract_import_vars (output : String → String → String)
    (imports : Option (List ResourcesImport)) : List (String × String) :=
  match imports with
  | none => []
  | some l =>
    dictUpdate [] (l.map (fun e => (importTargetName e, output e.source e.resource)))

/-- C8: import resolution processes entries in declaration order, binds each
value under the alias when given (and non-empty) and under the original
exported name otherwise, and when several entries resolve to the same target
variable the last entry's value is the one present (last-write-wins, no
collision error): the final binding of any name `k` is exactly the value of
the last import entry whose target name is `k`. -/
theorem extract_import_vars_last_write_wins (output : String → String → String)
    (l : List ResourcesImport) (k : String) :
    dictFind (extract_import_vars output (some l)) k =
      ((l.filter (fun e => importTargetName e = k)).getLast?).map
        (fun e => output e.source e.resource) := by
  unfold extract_import_vars
  rw [dictFind_dictUpdate]
  have hfilter :
      ((l.map (fun e => (importTargetName e, output e.source e.resource))).filter
          (fun kv => kv.1 = k))
        = (l.filter (fun e => importTargetName e = k)).map
            (fun e => (importTargetName e, output e.source e.resource)) := by
    rw [List.filter_map]
    rfl
  rw [hfilter, List.getLast?_map]
  cases (l.filter (fun e => importTargetName e = k)).getLast? <;> simp [dictFind]

/-! ### Directory discovery — `terranova/commands/helpers.py`,
`find_all_resource_dirs` and `resource_dirs`

`os.walk` is an external interaction: it is modelled as the list of
`(dirpath, filenames)` pairs it yields, in the order it yields them (which
follows filesystem enumeration order, top-down).  `os.path.basename` is the
identity on the bare filenames `os.walk` reports, so the inner test is a
direct comparison with `manifest.yml`. -/

/-- One `(path, _, files)` triple yielded by `os.walk` (the unused middle
component is omitted). -/
structure WalkEntry where
  path : String
  files : List String
deriving DecidableEq, Repr

/-- `find_all_resource_dirs(resources_dir)`: for every walked directory and
every file named `manifest.yml` in it, append the pair
`(Path(path), path[resources_dir_prefix_len:])` where
`resources_dir_prefix_len = len(resources_dir_path) + 1`. -/
def find_all_resource_dirs (resourcesDirPath : String) (walk : List WalkEntry) :
    List (String × String) :=
  walk.foldl
    (fun paths e =>
      e.files.foldl
        (fun ps f =>
          if f = "manifest.yml" then
            ps ++ [(e.path, e.path.drop (resourcesDirPath.length + 1))]
          else ps)
        paths)
    []

/-- Relative-path join `resources_dir.joinpath(path)` for a relative
`path` argument. -/
def pathJoin (base p : String) : String := base ++ "/" ++ p

/-- `resource_dirs(path)`: walk either the configured resources root or,
when a path argument is given (and truthy), the joined sub-path.  The walk
oracle maps a root to the `os.walk` listing of that root. -/
def resource_dirs (resourcesRoot : String) (path : Option String)
    (walkOf : String → List WalkEntry) : List (String × String) :=
  let dir :=
    match path with
    | some p => if p.isEmpty then resourcesRoot else pathJoin resourcesRoot p
    | none => resourcesRoot
  find_all_resource_dirs resourcesRoot (walkOf dir)

theorem find_all_resource_dirs_manifest_not_in (fs : List String)
    (h : "manifest.yml" ∉ fs) (ps : List (String × String))
    (entry : String × String) :
    fs.foldl (fun ps f => if f = "manifest.yml" then ps ++ [entry] else ps) ps
      = ps := by
  induction fs generalizing ps with
  | nil => rfl
  | cons f rest ih =>
    have hf : f ≠ "manifest.yml" := by
      intro hh
      exact h (hh ▸ List.mem_cons_self f rest)
    have hrest : "manifest.yml" ∉ rest := fun hm => h (List.mem_cons_of_mem f hm)
    simp only [List.foldl_cons, if_neg hf]
    exact ih hrest ps

theorem find_all_resource_dirs_entry (fs : List String) (hnd : fs.Nodup)
    (ps : List (String × String)) (entry : String × String) :
    fs.foldl (fun ps f => if f = "manifest.yml" then ps ++ [entry] else ps) ps
      = ps ++ (if fs.contains "manifest.yml" then [entry] else []) := by
  induction fs generalizing ps with
  | nil => simp
  | cons f rest ih =>
    simp only [List.nodup_cons] at hnd
    by_cases hf : f = "manifest.yml"
    · subst hf
      have hnotin : "manifest.yml" ∉ rest := hnd.1
      simp only [List.foldl_cons, if_pos rfl]
      rw [find_all_resource_dirs_manifest_not_in rest hnotin _ entry]
      simp
    · simp only [List.foldl_cons, if_neg hf]
      rw [ih hnd.2 ps]
      have : ("manifest.yml" ∈ f :: rest) = ("manifest.yml" ∈ rest) := by
        simp [Ne.symm hf]
      simp [List.contains_cons, Ne.symm hf]

/-- C9 (amended): with no explicit path argument, the resolved directory
list consists of exactly the walked directories under the configured
resources root that contain a `manifest.yml`, each labelled with its path
relative to the root — but in the order `os.walk` enumerates them; no
sorting is applied. -/
theorem resource_dirs_all_manifest_dirs_walk_order (resourcesRoot : String)
    (walkOf : String → List WalkEntry)
    (hnd : ∀ e ∈ walkOf resourcesRoot, e.files.Nodup) :
    resource_dirs resourcesRoot none walkOf
      = ((walkOf resourcesRoot).filter (fun e => e.files.contains "manifest.yml")).map
          (fun e => (e.path, e.path.drop (resourcesRoot.length + 1))) := by
  show find_all_resource_dirs resourcesRoot (walkOf resourcesRoot) = _
  generalize walkOf resourcesRoot = walk at hnd ⊢
  suffices h : ∀ ps : List (String × String),
      walk.foldl
        (fun paths e =>
          e.files.foldl
            (fun ps f =>
              if f = "manifest.yml" then
                ps ++ [(e.path, e.path.drop (resourcesRoot.length + 1))]
              else ps)
            paths) ps
      = ps ++ (walk.filter (fun e => e.files.contains "manifest.yml")).map
          (fun e => (e.path, e.path.drop (resourcesRoot.length + 1))) by
    simpa using h []
  induction walk with
  | nil => simp
  | cons e rest ih =>
    intro ps
    have he : e.files.Nodup := hnd e (List.mem_cons_self e rest)
    have hrest : ∀ e' ∈ rest, e'.files.Nodup :=
      fun e' h' => hnd e' (List.mem_cons_of_mem e h')
    simp only [List.foldl_cons]
    rw [find_all_resource_dirs_entry e.files he ps
      (e.path, e.path.drop (resourcesRoot.length + 1)), ih hrest]
    by_cases hc : "manifest.yml" ∈ e.files
    · simp [List.filter_cons, hc]
    · simp [List.filter_cons, hc]

/-- A walk listing two manifest directories in the order `b` then `a`. -/
def walkBA : String → List WalkEntry := fun _ =>
  [⟨"/conf/resources/b", ["manifest.yml"]⟩, ⟨"/conf/resources/a", ["manifest.yml"]⟩]

/-- The same two manifest directories enumerated in the order `a` then `b`. -/
def walkAB : String → List WalkEntry := fun _ =>
  [⟨"/conf/resources/a", ["manifest.yml"]⟩, ⟨"/conf/resources/b", ["manifest.yml"]⟩]

/-- C9 counterexample: the resolved directory list follows the filesystem
enumeration order of `os.walk` and is not sorted — the same set of manifest
directories enumerated in two different orders yields two different result
lists, and when the walk yields `b` before `a` the output keeps `b` before
`a`. -/
theorem resource_dirs_not_sorted_counterexample :
    resource_dirs "/conf/resources" none walkBA
        = [("/conf/resources/b", "b"), ("/conf/resources/a", "a")]
      ∧ resource_dirs "/conf/resources" none walkAB
        = [("/conf/resources/a", "a"), ("/conf/resources/b", "b")]
      ∧ resource_dirs "/conf/resources" none walkBA
        ≠ resource_dirs "/conf/resources" none walkAB := by
  refine ⟨rfl, rfl, ?_⟩
  decide

/-- C9 witness: evaluating the amended statement on the concrete two-entry
walk reproduces the `b`-before-`a` listing. -/
theorem resource_dirs_all_manifest_dirs_walk_order_witness :
    resource_dirs "/conf/resources" none walkBA
      = ((walkBA "/conf/resources").filter (fun e => e.files.contains "manifest.yml")).map
          (fun e => (e.path, e.path.drop ("/conf/resources".length + 1))) :=
  resource_dirs_all_manifest_dirs_walk_order "/conf/resources" walkBA
    (by intro e he; fin_cases he <;> simp)

/-! ### Base64 — `base64.b64encode` / `base64.b64decode`

The plan payloads are opaque byte strings; bytes are modelled as `Nat`s
below 256.  Encoding follows RFC 4648 with `=` padding, decoding drops the
padding and reassembles the 6-bit groups. -/

/-- The standard base64 alphabet. -/
def base64Alphabet : List Char :=
  "ABCDEFGHIJKLMNOPQRSTUVWXYZabcdefghijklmnopqrstuvwxyz0123456789+/".toList

/-- The alphabet character for a 6-bit value. -/
def base64Char (n : Nat) : Char := base64Alphabet.getD n 'A'

/-- The 6-bit value of an alphabet character. -/
def base64Val (c : Char) : Nat := base64Alphabet.indexOf c

/-- Encode bytes three at a time into four alphabet characters, padding a
final one- or two-byte group with `=`. -/
def b64encodeChunks : List Nat → List Char
  | a :: b :: c :: rest =>
    base64Char (a / 4) :: base64Char ((a % 4) * 16 + b / 16) ::
      base64Char ((b % 16) * 4 + c / 64) :: base64Char (c % 64) :: b64encodeChunks rest
  | [a, b] =>
    [base64Char (a / 4), base64Char ((a % 4) * 16 + b / 16),
      base64Char ((b % 16) * 4), '=']
  | [a] => [base64Char (a / 4), base64Char ((a % 4) * 16), '=', '=']
  | [] => []

/-- `b64encode(bytes).decode("utf-8")`. -/
def b64encode (bytes : List Nat) : String := String.mk (b64encodeChunks bytes)

/-- Reassemble bytes from 6-bit values, four at a time, with truncated
final groups from `=`-padded input. -/
def b64decodeChunks : List Nat → List Nat
  | a :: b :: c :: d :: rest =>
    (a * 4 + b / 16) :: ((b % 16) * 16 + c / 4) :: ((c % 4) * 64 + d) ::
      b64decodeChunks rest
  | [a, b, c] => [a * 4 + b / 16, (b % 16) * 16 + c / 4]
  | [a, b] => [a * 4 + b / 16]
  | _ => []

/-- `b64decode(s)`. -/
def b64decode (s : String) : List Nat :=
  b64decodeChunks ((s.data.filter (fun c => c ≠ '=')).map base64Val)

/-- `s.endswith(suf)`. -/
def pyEndswith (s suf : String) : Bool := suf.data.isSuffixOf s.data

/-! ### Batch loops — `terranova/commands/binds.py`, `init` and `apply`

Every per-directory `terraform` invocation is an external interaction; its
result is an `outcome` parameter (`Except Nat Unit`: `error code` for
`sh.ErrorReturnCode` with that exit code, `ok` for a zero exit).  Both
loops share the failure policy of the source: on `ErrorReturnCode` set
`errors = True` and `break` unless `--fail-at-end` was given; after the
loop, `raise Exit(code=1)` when `errors` is set. -/

/-- The directories a batch loop actually reaches: all of them under
`fail-at-end`, otherwise everything up to and including the first failing
one. -/
def processedRels (failAtEnd : Bool) (outcome : String → Except Nat Unit) :
    List String → List String
  | [] => []
  | rel :: rest =>
    match outcome rel with
    | .ok _ => rel :: processedRels failAtEnd outcome rest
    | .error _ =>
      if failAtEnd then rel :: processedRels failAtEnd outcome rest else [rel]

/-- Whether a directory's invocation failed. -/
def relHasError (outcome : String → Except Nat Unit) (rel : String) : Bool :=
  match outcome rel with
  | .ok _ => false
  | .error _ => true

/-- The `init` command's directory loop: pairs `(rel_path, invocation
result)`; returns the `errors` flag and the list of directories whose
external tool was invoked. -/
def initLoop (failAtEnd : Bool) : List (String × Except Nat Unit) → Bool × List String
  | [] => (false, [])
  | (rel, res) :: rest =>
    match res with
    | .ok _ =>
      let r := initLoop failAtEnd rest
      (r.1, rel :: r.2)
    | .error _ =>
      if failAtEnd then
        let r := initLoop failAtEnd rest
        (true, rel :: r.2)
      else (true, [rel])

/-- The `init` command: exit code (`Exit(code=1)` when any error was
recorded, 0 otherwise) and invoked directories. -/
def initRun (failAtEnd : Bool) (dirs : List (String × Except Nat Unit)) :
    Nat × List String :=
  let r := initLoop failAtEnd dirs
  (if r.1 then 1 else 0, r.2)

/-- The bytes a single `apply` iteration hands to the external tool:
`if execution_plan:` (Python truthiness — an empty artifact dict counts as
absent) decodes the directory's stored payload into a temporary file,
otherwise no saved plan is supplied. -/
def applyPlanArg (usePlan : Bool) (artifact : List (String × String))
    (rel : String) : Option (List Nat) :=
  if usePlan && !artifact.isEmpty then
    some (b64decode (dictGetD artifact rel ""))
  else none

/-- The `apply` command's directory loop.  `usePlan` tells whether
`path_or_plan` named a plan artifact.  The log records, per invoked
directory, the bytes handed to `terraform apply`
(`b64decode(execution_plan[rel_path])` written to a temporary file), or
`none` when no saved plan is supplied. -/
def applyLoop (usePlan : Bool) (artifact : List (String × String))
    (outcome : String → Except Nat Unit) (failAtEnd : Bool) :
    List String → Bool × List (String × Option (List Nat))
  | [] => (false, [])
  | rel :: rest =>
    match outcome rel with
    | .ok _ =>
      let r := applyLoop usePlan artifact outcome failAtEnd rest
      (r.1, (rel, applyPlanArg usePlan artifact rel) :: r.2)
    | .error _ =>
      if failAtEnd then
        let r := applyLoop usePlan artifact outcome failAtEnd rest
        (true, (rel, applyPlanArg usePlan artifact rel) :: r.2)
      else (true, [(rel, applyPlanArg usePlan artifact rel)])

/-- The `apply` command: when `path_or_plan` ends with `tnplan`, the
directory list is the artifact's keys in iteration order, otherwise the
filesystem-derived list; returns the exit code and the invocation log. -/
def applyRun (pathOrPlan : String) (artifact : List (String × String))
    (fsDirs : List String) (outcome : String → Except Nat Unit)
    (failAtEnd : Bool) : Nat × List (String × Option (List Nat)) :=
  let usePlan := pyEndswith pathOrPlan "tnplan"
  let rels := if usePlan then artifact.map Prod.fst else fsDirs
  let r := applyLoop usePlan artifact outcome failAtEnd rels
  (if r.1 then 1 else 0, r.2)

/-! ### Batch-loop lemmas -/

theorem applyLoop_eq (usePlan : Bool) (artifact : List (String × String))
    (outcome : String → Except Nat Unit) (failAtEnd : Bool)
    (rels : List String) :
    applyLoop usePlan artifact outcome failAtEnd rels =
      ((processedRels failAtEnd outcome rels).any (relHasError outcome),
       (processedRels failAtEnd outcome rels).map (fun rel =>
         (rel, applyPlanArg usePlan artifact rel))) := by
  induction rels with
  | nil => rfl
  | cons rel rest ih =>
    cases hres : outcome rel with
    | ok u =>
      cases u
      have herr : relHasError outcome rel = false := by simp [relHasError, hres]
      simp [applyLoop, processedRels, hres, ih, herr]
    | error e =>
      have herr : relHasError outcome rel = true := by simp [relHasError, hres]
      cases failAtEnd with
      | true => simp [applyLoop, processedRels, hres, ih, herr]
      | false => simp [applyLoop, processedRels, hres, herr]

theorem processedRels_all_ok (failAtEnd : Bool)
    (outcome : String → Except Nat Unit) (rels : List String)
    (h : ∀ r ∈ rels, outcome r = Except.ok ()) :
    processedRels failAtEnd outcome rels = rels := by
  induction rels with
  | nil => rfl
  | cons rel rest ih =>
    have hrel := h rel (List.mem_cons_self rel rest)
    have hrest := ih (fun r hr => h r (List.mem_cons_of_mem rel hr))
    simp [processedRels, hrel, hrest]

theorem processedRels_failAtEnd (outcome : String → Except Nat Unit)
    (rels : List String) :
    processedRels true outcome rels = rels := by
  induction rels with
  | nil => rfl
  | cons rel rest ih => cases houtr : outcome rel <;> simp [processedRels, houtr, ih]

theorem processedRels_abort (outcome : String → Except Nat Unit)
    (pre : List String) (f : String) (post : List String) (e : Nat)
    (hpre : ∀ r ∈ pre, outcome r = Except.ok ())
    (hf : outcome f = Except.error e) :
    processedRels false outcome (pre ++ f :: post) = pre ++ [f] := by
  induction pre with
  | nil => simp [processedRels, hf]
  | cons r rest ih =>
    have hr := hpre r (List.mem_cons_self r rest)
    have hrest := ih (fun r' hr' => hpre r' (List.mem_cons_of_mem r hr'))
    simp [processedRels, hr, hrest]

theorem initLoop_abort (pre : List (String × Except Nat Unit)) (rel : String)
    (e : Nat) (post : List (String × Except Nat Unit))
    (hpre : ∀ d ∈ pre, d.2 = Except.ok ()) :
    initLoop false (pre ++ (rel, Except.error e) :: post)
      = (true, pre.map Prod.fst ++ [rel]) := by
  induction pre with
  | nil => simp [initLoop]
  | cons d rest ih =>
    obtain ⟨r, res⟩ := d
    have hd : res = Except.ok () := hpre (r, res) (List.mem_cons_self _ rest)
    have hrest := ih (fun d' hd' => hpre d' (List.mem_cons_of_mem _ hd'))
    subst hd
    simp [initLoop, hrest]

theorem dictFind_of_mem_nodup {α : Type} (d : List (String × α))
    (hnd : (d.map Prod.fst).Nodup) (k : String) (v : α) (hmem : (k, v) ∈ d) :
    dictFind d k = some v := by
  induction d with
  | nil => cases hmem
  | cons hd tl ih =>
    obtain ⟨k', v'⟩ := hd
    simp only [List.map_cons, List.nodup_cons] at hnd
    rcases List.mem_cons.mp hmem with heq | htl
    · have hk : k' = k := (congrArg Prod.fst heq).symm
      have hv : v' = v := (congrArg Prod.snd heq).symm
      subst hk
      subst hv
      simp [dictFind]
    · have hne : k' ≠ k := by
        intro hk
        subst hk
        exact hnd.1 (List.mem_map.mpr ⟨(k', v), htl, rfl⟩)
      simp [dictFind, hne, ih hnd.2 htl]

/-! ### C3 — abort on first failure, exit code -/

/-- C3 counterexample: three directories where the second `init` invocation
fails with subprocess exit code 2 and `fail-at-end` is disabled — the third
directory is indeed never invoked, but the orchestrator exits with 1, not
with the failing subprocess's exit code 2, so the claim's exit-code clause
is false. -/
theorem init_exit_code_counterexample :
    initRun false [("a", Except.ok ()), ("b", Except.error 2), ("c", Except.ok ())]
        = (1, ["a", "b"])
      ∧ (1 : Nat) ≠ 2 := by
  exact ⟨rfl, by decide⟩

/-- C3 (amended): with `fail-at-end` disabled, a batch `init` or `apply`
stops right after the first failing directory — no later directory's
external tool is invoked — and the orchestrator exits with code 1
regardless of the failing subprocess's exit code. -/
theorem batch_abort_stops_and_exits_one
    (pre : List (String × Except Nat Unit)) (rel : String) (e : Nat)
    (post : List (String × Except Nat Unit))
    (hpre : ∀ d ∈ pre, d.2 = Except.ok ())
    (p : String) (artifact : List (String × String)) (fsPre : List String)
    (f : String) (fsPost : List String) (outcome : String → Except Nat Unit)
    (e' : Nat) (hp : pyEndswith p "tnplan" = false)
    (hfsPre : ∀ r ∈ fsPre, outcome r = Except.ok ())
    (hf : outcome f = Except.error e') :
    initRun false (pre ++ (rel, Except.error e) :: post)
        = (1, pre.map Prod.fst ++ [rel])
      ∧ applyRun p artifact (fsPre ++ f :: fsPost) outcome false
        = (1, (fsPre ++ [f]).map (fun r => (r, (none : Option (List Nat))))) := by
  constructor
  · unfold initRun
    rw [initLoop_abort pre rel e post hpre]
    rfl
  · have hany : (fsPre ++ [f]).any (relHasError outcome) = true := by
      have hferr : relHasError outcome f = true := by simp [relHasError, hf]
      simp [List.any_append, hferr]
    have harg : ∀ r, applyPlanArg false artifact r = none := by
      intro r
      simp [applyPlanArg]
    simp only [applyRun, hp, Bool.false_eq_true, if_false, applyLoop_eq,
      processedRels_abort outcome fsPre f fsPost e' hfsPre hf, hany, if_true]
    apply Prod.ext rfl
    simp [harg]

/-- Outcome oracle for the C3 witness: directory `b` fails with exit code
2, everything else succeeds. -/
def witnessOutcome : String → Except Nat Unit := fun r =>
  if r = "b" then Except.error 2 else Except.ok ()

/-- C3 witness: the amended statement evaluated on a concrete three-
directory batch whose second directory fails with subprocess exit code 2. -/
theorem batch_abort_stops_and_exits_one_witness :
    initRun false [("a", Except.ok ()), ("b", Except.error 2), ("c", Except.ok ())]
        = (1, ["a", "b"])
      ∧ applyRun "svc" [] (["a"] ++ "b" :: ["c"]) witnessOutcome false
        = (1, (["a"] ++ ["b"]).map (fun r => (r, (none : Option (List Nat))))) := by
  have h := batch_abort_stops_and_exits_one
    [("a", Except.ok ())] "b" 2 [("c", Except.ok ())]
    (by intro d hd; fin_cases hd <;> rfl)
    "svc" [] ["a"] "b" ["c"] witnessOutcome 2
    (by decide)
    (by intro r hr; fin_cases hr <;> rfl)
    (by rfl)
  exact ⟨h.1, h.2⟩

/-! ### C2 — apply from a saved plan artifact -/

/-- C2 (amended): an `apply` pointed at a plan artifact takes its directory
list from the artifact's keys in the artifact's iteration order, and every
invoked directory receives exactly the base64-decoded stored payload (no
fresh plan is computed); all keys are processed when every apply succeeds
or when `fail-at-end` is enabled, while with `fail-at-end` disabled a
failure stops processing after the failing key. -/
theorem apply_plan_artifact_payloads (p : String)
    (artifact : List (String × String)) (fsDirs : List String)
    (outcome : String → Except Nat Unit) (failAtEnd : Bool)
    (hp : pyEndswith p "tnplan" = true)
    (hnd : (artifact.map Prod.fst).Nodup) :
    (applyRun p artifact fsDirs outcome failAtEnd).2
        = (processedRels failAtEnd outcome (artifact.map Prod.fst)).map
            (fun rel => (rel, applyPlanArg true artifact rel))
      ∧ ((∀ r ∈ artifact.map Prod.fst, outcome r = Except.ok ()) →
          applyRun p artifact fsDirs outcome failAtEnd
            = (0, artifact.map (fun kv => (kv.1, some (b64decode kv.2)))))
      ∧ (failAtEnd = true →
          (applyRun p artifact fsDirs outcome failAtEnd).2
            = artifact.map (fun kv => (kv.1, some (b64decode kv.2)))) := by
  have hkv_map :
      (artifact.map Prod.fst).map (fun rel => (rel, applyPlanArg true artifact rel))
      = artifact.map (fun kv => (kv.1, some (b64decode kv.2))) := by
    rw [List.map_map]
    apply List.map_congr_left
    intro kv hkv
    have hfind : dictFind artifact kv.1 = some kv.2 :=
      dictFind_of_mem_nodup artifact hnd kv.1 kv.2 (by cases kv; exact hkv)
    have hne : ¬ artifact.isEmpty := by
      cases artifact with
      | nil => cases hkv
      | cons _ _ => simp
    simp [Function.comp, applyPlanArg, dictGetD, hfind, hne]
  have hlog : (applyRun p artifact fsDirs outcome failAtEnd).2
      = (processedRels failAtEnd outcome (artifact.map Prod.fst)).map
          (fun rel => (rel, applyPlanArg true artifact rel)) := by
    simp only [applyRun, hp, if_true, applyLoop_eq]
  refine ⟨hlog, ?_, ?_⟩
  · intro hok
    have hproc := processedRels_all_ok failAtEnd outcome (artifact.map Prod.fst) hok
    have hnoerr : (processedRels failAtEnd outcome (artifact.map Prod.fst)).any
        (relHasError outcome) = false := by
      rw [hproc, List.any_eq_false]
      intro r hr
      simp [relHasError, hok r hr]
    have hexit : (applyRun p artifact fsDirs outcome failAtEnd).1 = 0 := by
      simp only [applyRun, hp, if_true, applyLoop_eq, hnoerr]
      simp
    have hsnd : (applyRun p artifact fsDirs outcome failAtEnd).2
        = artifact.map (fun kv => (kv.1, some (b64decode kv.2))) := by
      rw [hlog, hproc, hkv_map]
    calc applyRun p artifact fsDirs outcome failAtEnd
        = ((applyRun p artifact fsDirs outcome failAtEnd).1,
           (applyRun p artifact fsDirs outcome failAtEnd).2) := rfl
      _ = (0, artifact.map (fun kv => (kv.1, some (b64decode kv.2)))) := by
          rw [hexit, hsnd]
  · intro hfae
    subst hfae
    rw [hlog, processedRels_failAtEnd, hkv_map]

/-- Outcome oracle for the C2 counterexample: directory `a` fails. -/
def applyCexOutcome : String → Except Nat Unit := fun r =>
  if r = "a" then Except.error 1 else Except.ok ()

/-- C2 counterexample: an artifact with keys `a` and `b` where `a`'s apply
fails and `fail-at-end` is disabled — only `a` is applied, so the set of
applied directories is not the artifact's key set. -/
theorem apply_plan_artifact_counterexample :
    ((applyRun "deploy.tnplan" [("a", b64encode [1, 2]), ("b", b64encode [3])]
        [] applyCexOutcome false).2.map Prod.fst = ["a"])
      ∧ ([("a", b64encode [1, 2]), ("b", b64encode [3])].map Prod.fst = ["a", "b"])
      ∧ (["a"] ≠ (["a", "b"] : List String)) := by
  exact ⟨rfl, rfl, by decide⟩

/-- C2 witness: the amended statement on a one-entry artifact whose apply
succeeds — the stored payload is decoded and handed over unmodified. -/
theorem apply_plan_artifact_payloads_witness :
    applyRun "x.tnplan" [("a", b64encode [1, 2])] [] (fun _ => Except.ok ()) false
      = (0, [("a", b64encode [1, 2])].map (fun kv => (kv.1, some (b64decode kv.2)))) :=
  (apply_plan_artifact_payloads "x.tnplan" [("a", b64encode [1, 2])] []
      (fun _ => Except.ok ()) false (by decide) (by simp)).2.1
    (fun r _ => rfl)

/-! ### The `plan` command — `terranova/commands/binds.py`, `plan`

Per directory the loop invokes `terraform.plan(**args)`; with `--out` the
invocation writes its binary plan into a temporary file first.  Each
directory is modelled by its relative path, the invocation result, and the
bytes found in that temporary file afterwards.  On success the payload is
always captured into `execution_plan[rel_path]`; on `ErrorReturnCode` it is
captured only when the exit code is 2 (detailed exit code "succeeded,
there is a diff") before the error is re-raised to the outer handler,
which records the exit code and breaks unless `--fail-at-end`. -/

/-- One directory of a batch `plan`. -/
structure PlanDir where
  relPath : String
  result : Except Nat Unit
  planBytes : List Nat
deriving Repr

/-- The `plan` loop, carrying `(errors, error_exit_codes, execution_plan)`. -/
def planLoop (useOut failAtEnd : Bool) :
    Bool × List Nat × List (String × String) → List PlanDir →
      Bool × List Nat × List (String × String)
  | st, [] => st
  | (errors, codes, plan), d :: rest =>
    match d.result with
    | .ok _ =>
      planLoop useOut failAtEnd
        (errors, codes,
         if useOut then dictInsert plan d.relPath (b64encode d.planBytes) else plan)
        rest
    | .error e =>
      let plan' :=
        if useOut && e == 2 then dictInsert plan d.relPath (b64encode d.planBytes)
        else plan
      if failAtEnd then planLoop useOut failAtEnd (true, codes ++ [e], plan') rest
      else (true, codes ++ [e], plan')

/-- The `plan` command: aggregate exit code and the written plan artifact
(`none` when `write_plan` is never called).  On recorded errors the
aggregate is `1 if 1 in error_exit_codes else 2`, and the artifact is
written only when that aggregate is 2 and `--out` was given; with no
errors the command exits 0 and writes the artifact whenever `--out` was
given. -/
def planRun (useOut failAtEnd : Bool) (paths : List PlanDir) :
    Nat × Option (List (String × String)) :=
  let r := planLoop useOut failAtEnd (false, [], []) paths
  let errors := r.1
  let codes := r.2.1
  let plan := r.2.2
  if errors then
    let exitCode := if codes.contains 1 then 1 else 2
    (exitCode, if exitCode == 2 && useOut then some plan else none)
  else (0, if useOut then some plan else none)

/-- The directories a batch `plan` actually reaches (all of them under
`fail-at-end`, otherwise up to and including the first failing one). -/
def planProcessed (failAtEnd : Bool) : List PlanDir → List PlanDir
  | [] => []
  | d :: rest =>
    match d.result with
    | .ok _ => d :: planProcessed failAtEnd rest
    | .error _ => if failAtEnd then d :: planProcessed failAtEnd rest else [d]

/-- The `error_exit_codes` the loop records. -/
def planErrorCodes (failAtEnd : Bool) (paths : List PlanDir) : List Nat :=
  (planProcessed failAtEnd paths).filterMap (fun d =>
    match d.result with
    | .ok _ => none
    | .error e => some e)

/-- Whether a directory's invocation left a captured plan payload: a zero
exit always does, a failure only with detailed exit code 2. -/
def planProducedPlanFile (d : PlanDir) : Bool :=
  match d.result with
  | .ok _ => true
  | .error e => e == 2

/-- The artifact content the loop accumulates over a directory list. -/
def planArtifactEntries (paths : List PlanDir) : List (String × String) :=
  (paths.filter planProducedPlanFile).map (fun d => (d.relPath, b64encode d.planBytes))

theorem planProcessed_sublist (failAtEnd : Bool) (paths : List PlanDir) :
    (planProcessed failAtEnd paths).Sublist paths := by
  induction paths with
  | nil => simp [planProcessed]
  | cons d rest ih =>
    cases hres : d.result with
    | ok u => simpa [planProcessed, hres] using ih.cons₂ d
    | error e =>
      cases failAtEnd with
      | true => simpa [planProcessed, hres] using ih.cons₂ d
      | false =>
        simp only [planProcessed, hres, Bool.false_eq_true, if_false]
        exact (List.nil_sublist rest).cons₂ d

theorem planLoop_spec (useOut failAtEnd : Bool) (paths : List PlanDir)
    (errors0 : Bool) (codes0 : List Nat) (plan0 : List (String × String))
    (hfresh : ∀ d ∈ paths, dictFind plan0 d.relPath = none)
    (hnd : (paths.map PlanDir.relPath).Nodup) :
    planLoop useOut failAtEnd (errors0, codes0, plan0) paths
      = (errors0 || !(planErrorCodes failAtEnd paths).isEmpty,
         codes0 ++ planErrorCodes failAtEnd paths,
         plan0 ++ (if useOut then
           planArtifactEntries (planProcessed failAtEnd paths) else [])) := by
  induction paths generalizing errors0 codes0 plan0 with
  | nil => simp [planLoop, planErrorCodes, planProcessed, planArtifactEntries]
  | cons d rest ih =>
    simp only [List.map_cons, List.nodup_cons] at hnd
    have hfresh_d : dictFind plan0 d.relPath = none :=
      hfresh d (List.mem_cons_self d rest)
    have hfresh_rest : ∀ plan1 : List (String × String),
        (∀ d' ∈ rest, dictFind plan1 d'.relPath = none) →
        ∀ d' ∈ rest, dictFind (dictInsert plan1 d.relPath (b64encode d.planBytes))
          d'.relPath = none := by
      intro plan1 h1 d' hd'
      rw [dictFind_dictInsert]
      have hne : d.relPath ≠ d'.relPath := by
        intro hh
        exact hnd.1 (hh ▸ List.mem_map.mpr ⟨d', hd', rfl⟩)
      simp [hne, h1 d' hd']
    have hfresh_rest0 : ∀ d' ∈ rest, dictFind plan0 d'.relPath = none :=
      fun d' hd' => hfresh d' (List.mem_cons_of_mem d hd')
    cases hres : d.result with
    | ok u =>
      cases u
      have hproc : planProcessed failAtEnd (d :: rest)
          = d :: planProcessed failAtEnd rest := by
        simp [planProcessed, hres]
      have hcodes : planErrorCodes failAtEnd (d :: rest)
          = planErrorCodes failAtEnd rest := by
        simp [planErrorCodes, hproc, List.filterMap_cons, hres]
      have hart : planArtifactEntries (d :: planProcessed failAtEnd rest)
          = (d.relPath, b64encode d.planBytes)
              :: planArtifactEntries (planProcessed failAtEnd rest) := by
        simp [planArtifactEntries, List.filter_cons, planProducedPlanFile, hres]
      cases useOut with
      | true =>
        have hstep : planLoop true failAtEnd (errors0, codes0, plan0) (d :: rest)
            = planLoop true failAtEnd
                (errors0, codes0, dictInsert plan0 d.relPath (b64encode d.planBytes))
                rest := by
          simp [planLoop, hres]
        rw [hstep, ih errors0 codes0 _ (hfresh_rest plan0 hfresh_rest0) hnd.2,
          dictInsert_fresh plan0 _ _ hfresh_d, hcodes, hproc, hart]
        simp
      | false =>
        have hstep : planLoop false failAtEnd (errors0, codes0, plan0) (d :: rest)
            = planLoop false failAtEnd (errors0, codes0, plan0) rest := by
          simp [planLoop, hres]
        rw [hstep, ih errors0 codes0 plan0 hfresh_rest0 hnd.2, hcodes]
        simp
    | error e =>
      have hproc_t : planProcessed true (d :: rest) = d :: planProcessed true rest := by
        simp [planProcessed, hres]
      have hart_cons : planArtifactEntries (d :: planProcessed true rest)
          = (if planProducedPlanFile d then
              [(d.relPath, b64encode d.planBytes)] else [])
            ++ planArtifactEntries (planProcessed true rest) := by
        by_cases hpp : planProducedPlanFile d
        · simp [planArtifactEntries, List.filter_cons, hpp]
        · simp only [eq_self_iff_true] at hpp
          simp [planArtifactEntries, List.filter_cons, hpp]
      cases failAtEnd with
      | true =>
        have hcodes : planErrorCodes true (d :: rest)
            = e :: planErrorCodes true rest := by
          simp [planErrorCodes, hproc_t, List.filterMap_cons, hres]
        have hplan' :
            (if useOut && e == 2 then
              dictInsert plan0 d.relPath (b64encode d.planBytes) else plan0)
            = plan0 ++ (if useOut then
                (if planProducedPlanFile d then
                  [(d.relPath, b64encode d.planBytes)] else []) else []) := by
          by_cases houp : useOut
          · by_cases he2 : e == 2
            · simp [houp, he2, dictInsert_fresh plan0 _ _ hfresh_d,
                planProducedPlanFile, hres]
            · simp only [eq_self_iff_true] at he2
              simp [houp, he2, planProducedPlanFile, hres]
          · simp only [eq_self_iff_true] at houp
            simp [houp]
        have hstep : planLoop useOut true (errors0, codes0, plan0) (d :: rest)
            = planLoop useOut true (true, codes0 ++ [e],
                if useOut && e == 2 then
                  dictInsert plan0 d.relPath (b64encode d.planBytes) else plan0)
                rest := by
          simp [planLoop, hres]
        have hfresh' : ∀ d' ∈ rest,
            dictFind (if useOut && e == 2 then
              dictInsert plan0 d.relPath (b64encode d.planBytes) else plan0)
              d'.relPath = none := by
          intro d' hd'
          by_cases hc : useOut && e == 2
          · simp only [hc, if_true]
            exact hfresh_rest plan0 hfresh_rest0 d' hd'
          · simp only [hc, if_false]
            exact hfresh_rest0 d' hd'
        rw [hstep, ih true (codes0 ++ [e]) _ hfresh' hnd.2, hplan', hcodes,
          hproc_t, hart_cons]
        simp only [Prod.mk.injEq]
        refine ⟨by simp, by simp, ?_⟩
        by_cases houp : useOut = true
        · simp [houp, List.append_assoc]
        · simp [houp]
      | false =>
        have hproc_f : planProcessed false (d :: rest) = [d] := by
          simp [planProcessed, hres]
        have hcodes : planErrorCodes false (d :: rest) = [e] := by
          simp [planErrorCodes, hproc_f, List.filterMap_cons, hres]
        have hstep : planLoop useOut false (errors0, codes0, plan0) (d :: rest)
            = (true, codes0 ++ [e],
               if useOut && e == 2 then
                 dictInsert plan0 d.relPath (b64encode d.planBytes) else plan0) := by
          simp [planLoop, hres]
        rw [hstep, hcodes, hproc_f]
        simp only [Prod.mk.injEq]
        refine ⟨by simp, by simp, ?_⟩
        by_cases houp : useOut = true
        · by_cases he2 : (e == 2) = true
          · simp [houp, he2, dictInsert_fresh plan0 _ _ hfresh_d,
              planArtifactEntries, List.filter_cons, planProducedPlanFile, hres]
          · have he2' : (e == 2) = false := by simpa using he2
            simp [houp, he2', planArtifactEntries, List.filter_cons,
              planProducedPlanFile, hres]
        · have houp' : useOut = false := by simpa using houp
          simp [houp']

theorem dictFind_planArtifactEntries (l : List PlanDir)
    (hnd : (l.map PlanDir.relPath).Nodup) (d : PlanDir) (hd : d ∈ l)
    (hpp : planProducedPlanFile d = true) :
    dictFind (planArtifactEntries l) d.relPath = some (b64encode d.planBytes) := by
  have hnodup : ((planArtifactEntries l).map Prod.fst).Nodup := by
    have hmapeq : (planArtifactEntries l).map Prod.fst
        = (l.filter planProducedPlanFile).map PlanDir.relPath := by
      simp [planArtifactEntries, List.map_map, Function.comp]
    rw [hmapeq]
    exact List.Nodup.sublist ((List.filter_sublist l).map PlanDir.relPath) hnd
  exact dictFind_of_mem_nodup (planArtifactEntries l) hnodup d.relPath
    (b64encode d.planBytes)
    (List.mem_map.mpr ⟨d, List.mem_filter.mpr ⟨hd, hpp⟩, rfl⟩)

theorem planRun_code_one (useOut failAtEnd : Bool) (paths : List PlanDir)
    (hnd : (paths.map PlanDir.relPath).Nodup)
    (h1 : 1 ∈ planErrorCodes failAtEnd paths) :
    planRun useOut failAtEnd paths = (1, none) := by
  have hloop := planLoop_spec useOut failAtEnd paths false [] [] (fun d _ => rfl) hnd
  have hne : planErrorCodes failAtEnd paths ≠ [] := by
    intro hh
    rw [hh] at h1
    cases h1
  have hise : (planErrorCodes failAtEnd paths).isEmpty = false := by
    cases hcase : (planErrorCodes failAtEnd paths).isEmpty
    · rfl
    · exact absurd (List.isEmpty_iff.mp hcase) hne
  have hc1 : (planErrorCodes failAtEnd paths).contains 1 = true :=
    List.elem_iff.mpr h1
  unfold planRun
  rw [hloop]
  simp only [hise, hc1]
  simp [h1]

theorem planRun_no_code_one (useOut failAtEnd : Bool) (paths : List PlanDir)
    (hnd : (paths.map PlanDir.relPath).Nodup)
    (hfail : planErrorCodes failAtEnd paths ≠ [])
    (h1 : 1 ∉ planErrorCodes failAtEnd paths) :
    planRun useOut failAtEnd paths
      = (2, if useOut then
          some (planArtifactEntries (planProcessed failAtEnd paths)) else none) := by
  have hloop := planLoop_spec useOut failAtEnd paths false [] [] (fun d _ => rfl) hnd
  have hise : (planErrorCodes failAtEnd paths).isEmpty = false := by
    cases hcase : (planErrorCodes failAtEnd paths).isEmpty
    · rfl
    · exact absurd (List.isEmpty_iff.mp hcase) hfail
  have hc1 : (planErrorCodes failAtEnd paths).contains 1 = false := by
    cases hcase : (planErrorCodes failAtEnd paths).contains 1
    · rfl
    · exact absurd (List.elem_iff.mp hcase) h1
  unfold planRun
  rw [hloop]
  simp only [hise, hc1]
  cases useOut with
  | true => simp [h1]
  | false => simp [h1]

/-- C1: a batch `plan` under `--detailed-exitcode` with at least one failing
directory: if any recorded failure has exit code 1 the orchestrator exits 1
and no plan artifact is written even with `--out`; otherwise (all recorded
failures exited 2) it exits 2 and, with `--out`, writes the artifact, which
contains the captured base64-encoded payload of every reached directory
that produced a plan file (those that exited 0 and those that exited 2). -/
theorem plan_detailed_exitcode_aggregation (useOut failAtEnd : Bool)
    (paths : List PlanDir)
    (hnd : (paths.map PlanDir.relPath).Nodup)
    (hfail : planErrorCodes failAtEnd paths ≠ [])
    (hdet : ∀ c ∈ planErrorCodes failAtEnd paths, c = 1 ∨ c = 2) :
    ((1 ∈ planErrorCodes failAtEnd paths) →
        planRun useOut failAtEnd paths = (1, none))
      ∧ ((1 ∉ planErrorCodes failAtEnd paths) →
          planRun useOut failAtEnd paths
            = (2, if useOut then
                some (planArtifactEntries (planProcessed failAtEnd paths)) else none))
      ∧ (∀ d ∈ planProcessed failAtEnd paths, planProducedPlanFile d = true →
          dictFind (planArtifactEntries (planProcessed failAtEnd paths)) d.relPath
            = some (b64encode d.planBytes)) := by
  refine ⟨fun h1 => planRun_code_one useOut failAtEnd paths hnd h1,
    fun h1 => planRun_no_code_one useOut failAtEnd paths hnd hfail h1,
    fun d hd hpp => ?_⟩
  have hndproc : ((planProcessed failAtEnd paths).map PlanDir.relPath).Nodup :=
    List.Nodup.sublist ((planProcessed_sublist failAtEnd paths).map PlanDir.relPath) hnd
  exact dictFind_planArtifactEntries (planProcessed failAtEnd paths) hndproc d hd hpp

/-- The two-directory batch for the C1 witness: `a` plans cleanly, `b`
exits 2 (changes pending). -/
def planPathsW : List PlanDir :=
  [⟨"a", Except.ok (), [5]⟩, ⟨"b", Except.error 2, [7]⟩]

/-- C1 witness: on the concrete batch where `a` exits 0 and `b` exits 2,
the aggregate exit code is 2 and the artifact holds both captured
payloads. -/
theorem plan_detailed_exitcode_aggregation_witness :
    planRun true false planPathsW
      = (2, some [("a", b64encode [5]), ("b", b64encode [7])]) := by
  have h := (plan_detailed_exitcode_aggregation true false planPathsW
      (by decide) (by decide) (by decide)).2.1 (by decide)
  rw [h]
  rfl

/-- C10: whenever a batch `plan` records at least one failure and none of
the recorded exit codes is 1 — which covers failures with codes other than
1 or 2 and runs without `--detailed-exitcode`, since the aggregation never
consults that flag — the orchestrator exits 2 (never the subprocess's
actual code) and, with `--out`, still writes the plan artifact exactly as a
changes-pending success would. -/
theorem plan_failure_without_code_one_exits_two (useOut failAtEnd : Bool)
    (paths : List PlanDir)
    (hnd : (paths.map PlanDir.relPath).Nodup)
    (hfail : planErrorCodes failAtEnd paths ≠ [])
    (h1 : 1 ∉ planErrorCodes failAtEnd paths) :
    planRun useOut failAtEnd paths
      = (2, if useOut then
          some (planArtifactEntries (planProcessed failAtEnd paths)) else none) :=
  planRun_no_code_one useOut failAtEnd paths hnd hfail h1

/-- The one-directory batch for the C10 witness: its plan fails with exit
code 3 (not a detailed exit code). -/
def planPathsW10 : List PlanDir := [⟨"a", Except.error 3, []⟩]

/-- C10 witness: a single directory failing with exit code 3 still yields
aggregate exit code 2, and with `--out` an artifact is written (here empty,
since exit 3 captures no payload). -/
theorem plan_failure_without_code_one_exits_two_witness :
    planRun true false planPathsW10 = (2, some []) := by
  have h := plan_failure_without_code_one_exits_two true false planPathsW10
    (by decide) (by decide) (by decide)
  rw [h]
  rfl

/-! ### Execution-context environment — `terranova/binds.py`,
`Terraform.create_bind` and `EnvBind.inherit`

`EnvBind.inherit(predicate)` filters the orchestrator's own `os.environ`
(modelled as an insertion-ordered assoc list) through the allow-list
predicate, and `.add(additional_env_vars)` performs a dict update with the
injected entries: one `TF_VAR_<name>` per resolved import variable, the
shared `TF_PLUGIN_CACHE_DIR`, and `TF_LOG=DEBUG` when verbose mode is on.
The `additional_env_vars` dict is modelled as the list of its assignments
in program order; `dictUpdate` applies them sequentially, which yields the
same final environment. -/

/-- The tuple `inherit_env_vars` of exactly-matched variable names. -/
def inherit_env_vars : List String :=
  ["CLOUDSDK_AUTH_CREDENTIAL_FILE_OVERRIDE", "CLOUDSDK_CORE_PROJECT",
   "CLOUDSDK_PROJECT", "GCLOUD_PROJECT", "GCP_PROJECT",
   "GOOGLE_APPLICATION_CREDENTIALS", "GOOGLE_CLOUD_PROJECT",
   "GOOGLE_GHA_CREDS_PATH", "HOME", "PATH"]

/-- `s.startswith(pre)`. -/
def pyStartswith (s pre : String) : Bool := pre.data.isPrefixOf s.data

/-- The allow-list predicate `is_allowed_env_var`. -/
def is_allowed_env_var (envVar : String) : Bool :=
  inherit_env_vars.contains envVar
    || pyStartswith envVar "TF_"
    || pyStartswith envVar "TERRANOVA_"
    || pyStartswith envVar "AWS_"
    || pyStartswith envVar "ASDF_"

/-- The `additional_env_vars` assignments of `create_bind`, in program
order: `TF_VAR_<key>` per variable, the plugin-cache directory, and the
debug toggle when verbose. -/
def tfAdds (vars : Option (List (String × String))) (cacheDir : String)
    (verbose : Bool) : List (String × String) :=
  (match vars with
   | some vs => vs.map (fun kv => ("TF_VAR_" ++ kv.1, kv.2))
   | none => [])
  ++ [("TF_PLUGIN_CACHE_DIR", cacheDir)]
  ++ (if verbose then [("TF_LOG", "DEBUG")] else [])

/-- The subprocess environment `create_bind` hands to the wrapped tool:
`EnvBind.inherit(is_allowed_env_var)` followed by
`.add(additional_env_vars)`. -/
def createBindEnv (procEnv : List (String × String))
    (vars : Option (List (String × String))) (cacheDir : String)
    (verbose : Bool) : List (String × String) :=
  dictUpdate (procEnv.filter (fun kv => is_allowed_env_var kv.1))
    (tfAdds vars cacheDir verbose)

theorem pyStartswith_tfvar (k : String) :
    pyStartswith ("TF_VAR_" ++ k) "TF_" = true := by
  unfold pyStartswith
  rw [String.data_append]
  rfl

theorem tfvar_key_inj (k₁ k₂ : String)
    (h : ("TF_VAR_" ++ k₁ : String) = "TF_VAR_" ++ k₂) : k₁ = k₂ := by
  have hd := congrArg String.data h
  rw [String.data_append, String.data_append] at hd
  exact String.ext (List.append_cancel_left hd)

theorem tfvar_ne_cache (k : String) :
    ("TF_VAR_" ++ k : String) ≠ "TF_PLUGIN_CACHE_DIR" := by
  intro h
  have hd := congrArg String.data h
  rw [String.data_append] at hd
  have h7 : "TF_VAR_".data = ['T', 'F', '_', 'V', 'A', 'R', '_'] := rfl
  have hc : "TF_PLUGIN_CACHE_DIR".data
      = ['T', 'F', '_', 'P', 'L', 'U', 'G', 'I', 'N', '_', 'C', 'A', 'C', 'H',
         'E', '_', 'D', 'I', 'R'] := rfl
  rw [h7, hc] at hd
  simp at hd

theorem tfvar_ne_log (k : String) : ("TF_VAR_" ++ k : String) ≠ "TF_LOG" := by
  intro h
  have hd := congrArg String.data h
  rw [String.data_append] at hd
  have h7 : "TF_VAR_".data = ['T', 'F', '_', 'V', 'A', 'R', '_'] := rfl
  have hc : "TF_LOG".data = ['T', 'F', '_', 'L', 'O', 'G'] := rfl
  rw [h7, hc] at hd
  simp at hd

theorem tfAdds_key_startswith (vars : Option (List (String × String)))
    (cacheDir : String) (verbose : Bool) (kv : String × String)
    (hkv : kv ∈ tfAdds vars cacheDir verbose) :
    pyStartswith kv.1 "TF_" = true := by
  unfold tfAdds at hkv
  rcases List.mem_append.mp hkv with hl | hlog
  · rcases List.mem_append.mp hl with hvar | hcache
    · cases vars with
      | none => cases hvar
      | some vs =>
        rcases List.mem_map.mp hvar with ⟨kv0, _, rfl⟩
        exact pyStartswith_tfvar kv0.1
    · rcases List.mem_singleton.mp hcache with rfl
      exact (by decide : pyStartswith "TF_PLUGIN_CACHE_DIR" "TF_" = true)
  · cases verbose with
    | true =>
      rcases List.mem_singleton.mp (by simpa using hlog) with rfl
      exact (by decide : pyStartswith "TF_LOG" "TF_" = true)
    | false => simp at hlog

theorem dictFind_filter_not (l : List (String × String)) (q : String → Bool)
    (k : String) (hq : q k = false) :
    dictFind (l.filter (fun kv => q kv.1)) k = none := by
  induction l with
  | nil => rfl
  | cons kv rest ih =>
    by_cases hk : kv.1 = k
    · have : q kv.1 = false := hk ▸ hq
      simp [List.filter_cons, this, ih]
    · cases hqkv : q kv.1 with
      | true =>
        obtain ⟨k', v'⟩ := kv
        simp only at hk
        simp [List.filter_cons, hqkv, dictFind, hk, ih]
      | false => simp [List.filter_cons, hqkv, ih]

theorem dictFind_filter_of_none (l : List (String × String))
    (q : String → Bool) (k : String) (h : dictFind l k = none) :
    dictFind (l.filter (fun kv => q kv.1)) k = none := by
  induction l with
  | nil => rfl
  | cons kv rest ih =>
    obtain ⟨k', v'⟩ := kv
    by_cases hk : k' = k
    · simp [dictFind, hk] at h
    · simp only [dictFind, hk, if_false] at h
      cases hqkv : q k' with
      | true => simp [List.filter_cons, hqkv, dictFind, hk, ih h]
      | false => simp [List.filter_cons, hqkv, ih h]

theorem filter_fst_eq_singleton (vl : List (String × String))
    (hnd : (vl.map Prod.fst).Nodup) (k : String) (v : String)
    (hmem : (k, v) ∈ vl) :
    vl.filter (fun kv => kv.1 = k) = [(k, v)] := by
  induction vl with
  | nil => cases hmem
  | cons kv rest ih =>
    obtain ⟨k', v'⟩ := kv
    simp only [List.map_cons, List.nodup_cons] at hnd
    rcases List.mem_cons.mp hmem with heq | htl
    · have hk : k' = k := (congrArg Prod.fst heq).symm
      have hv : v' = v := (congrArg Prod.snd heq).symm
      rw [hk, hv]
      have hnotin : k ∉ rest.map Prod.fst := hk ▸ hnd.1
      have hrest : rest.filter (fun kv => kv.1 = k) = [] := by
        refine List.filter_eq_nil_iff.mpr ?_
        intro kv hkv
        simp only [decide_eq_true_eq]
        intro hk1
        exact hnotin (hk1 ▸ List.mem_map.mpr ⟨kv, hkv, rfl⟩)
      simp [List.filter_cons, hrest]
    · have hne : k' ≠ k := by
        intro hk
        apply hnd.1
        rw [hk]
        exact List.mem_map.mpr ⟨(k, v), htl, rfl⟩
      simp [List.filter_cons, hne, ih hnd.2 htl]

theorem tfAdds_filter_not_allowed (vars : Option (List (String × String)))
    (cacheDir : String) (verbose : Bool) (key : String)
    (hkey : is_allowed_env_var key = false) :
    (tfAdds vars cacheDir verbose).filter (fun kv => kv.1 = key) = [] := by
  refine List.filter_eq_nil_iff.mpr ?_
  intro kv hkv
  simp only [decide_eq_true_eq]
  intro hk1
  have hTF := tfAdds_key_startswith vars cacheDir verbose kv hkv
  rw [hk1] at hTF
  have hall : is_allowed_env_var key = true := by
    simp [is_allowed_env_var, hTF]
  rw [hall] at hkey
  cases hkey

theorem tfAdds_filter_tfvar (vl : List (String × String)) (cacheDir : String)
    (verbose : Bool) (k v : String) (hnd : (vl.map Prod.fst).Nodup)
    (hmem : (k, v) ∈ vl) :
    (tfAdds (some vl) cacheDir verbose).filter (fun kv => kv.1 = "TF_VAR_" ++ k)
      = [("TF_VAR_" ++ k, v)] := by
  unfold tfAdds
  rw [List.filter_append, List.filter_append]
  have h1 : (vl.map (fun kv => ("TF_VAR_" ++ kv.1, kv.2))).filter
      (fun kv => kv.1 = "TF_VAR_" ++ k) = [("TF_VAR_" ++ k, v)] := by
    rw [List.filter_map]
    have hpred : ((fun kv : String × String => decide (kv.1 = "TF_VAR_" ++ k)) ∘
        (fun kv : String × String => ("TF_VAR_" ++ kv.1, kv.2)))
        = fun kv : String × String => decide (kv.1 = k) := by
      funext kv
      simp only [Function.comp]
      by_cases hk : kv.1 = k
      · simp [hk]
      · have hne : ¬("TF_VAR_" ++ kv.1 = "TF_VAR_" ++ k) :=
          fun hh => hk (tfvar_key_inj _ _ hh)
        simp [hk, hne]
    rw [hpred, filter_fst_eq_singleton vl hnd k v hmem]
    rfl
  have h2 : ([("TF_PLUGIN_CACHE_DIR", cacheDir)]).filter
      (fun kv => kv.1 = "TF_VAR_" ++ k) = [] := by
    simp [List.filter_cons, Ne.symm (tfvar_ne_cache k)]
  have h3 : (if verbose then [("TF_LOG", "DEBUG")] else []).filter
      (fun kv => kv.1 = "TF_VAR_" ++ k) = [] := by
    cases verbose
    · rfl
    · simp [List.filter_cons, Ne.symm (tfvar_ne_log k)]
  rw [h1, h2, h3]
  simp

theorem tfAdds_filter_cache (vars : Option (List (String × String)))
    (cacheDir : String) (verbose : Bool) :
    (tfAdds vars cacheDir verbose).filter (fun kv => kv.1 = "TF_PLUGIN_CACHE_DIR")
      = [("TF_PLUGIN_CACHE_DIR", cacheDir)] := by
  unfold tfAdds
  rw [List.filter_append, List.filter_append]
  have h1 : (match vars with
      | some vs => vs.map (fun kv : String × String => ("TF_VAR_" ++ kv.1, kv.2))
      | none => ([] : List (String × String))).filter
        (fun kv : String × String => kv.1 = "TF_PLUGIN_CACHE_DIR") = [] := by
    cases vars with
    | none => rfl
    | some vs =>
      refine List.filter_eq_nil_iff.mpr ?_
      intro kv hkv
      rcases List.mem_map.mp hkv with ⟨kv0, _, rfl⟩
      simp [tfvar_ne_cache kv0.1]
  have h3 : (if verbose then [("TF_LOG", "DEBUG")] else []).filter
      (fun kv => kv.1 = "TF_PLUGIN_CACHE_DIR") = [] := by
    cases verbose
    · rfl
    · simp
  rw [h1, h3]
  simp

theorem tfAdds_filter_log (vars : Option (List (String × String)))
    (cacheDir : String) (verbose : Bool) :
    (tfAdds vars cacheDir verbose).filter (fun kv => kv.1 = "TF_LOG")
      = (if verbose then [("TF_LOG", "DEBUG")] else []) := by
  unfold tfAdds
  rw [List.filter_append, List.filter_append]
  have h1 : (match vars with
      | some vs => vs.map (fun kv : String × String => ("TF_VAR_" ++ kv.1, kv.2))
      | none => ([] : List (String × String))).filter
        (fun kv : String × String => kv.1 = "TF_LOG") = [] := by
    cases vars with
    | none => rfl
    | some vs =>
      refine List.filter_eq_nil_iff.mpr ?_
      intro kv hkv
      rcases List.mem_map.mp hkv with ⟨kv0, _, rfl⟩
      simp [tfvar_ne_log kv0.1]
  have h2 : ([("TF_PLUGIN_CACHE_DIR", cacheDir)]).filter
      (fun kv => kv.1 = "TF_LOG") = [] := by
    simp
  have h3 : (if verbose then [("TF_LOG", "DEBUG")] else []).filter
      (fun kv => kv.1 = "TF_LOG") = (if verbose then [("TF_LOG", "DEBUG")] else []) := by
    cases verbose
    · rfl
    · simp
  rw [h1, h2, h3]
  simp

/-- C4 (amended): the subprocess environment built by `create_bind` (a)
drops every process variable that neither appears in the explicit
allow-list nor carries one of the `TF_` / `TERRANOVA_` / `AWS_` / `ASDF_`
name starts; (b) contains one `TF_VAR_<name>` entry per resolved import
variable with its resolved value; (c) always points `TF_PLUGIN_CACHE_DIR`
at the shared plugin cache; (d) sets `TF_LOG=DEBUG` whenever verbose mode
is enabled; and (e) when verbose is disabled, injects no `TF_LOG` of its
own — a `TF_LOG` can then only be inherited from the (allow-listed,
`TF_`-started) process environment, which is why the original
"exactly when verbose" claim fails. -/
theorem terraform_env_allowlist_and_injection (procEnv : List (String × String))
    (vars : Option (List (String × String))) (cacheDir : String) (verbose : Bool) :
    (∀ key, is_allowed_env_var key = false →
        dictFind (createBindEnv procEnv vars cacheDir verbose) key = none)
      ∧ (∀ vl, vars = some vl → (vl.map Prod.fst).Nodup →
          ∀ k v, (k, v) ∈ vl →
            dictFind (createBindEnv procEnv vars cacheDir verbose) ("TF_VAR_" ++ k)
              = some v)
      ∧ dictFind (createBindEnv procEnv vars cacheDir verbose) "TF_PLUGIN_CACHE_DIR"
          = some cacheDir
      ∧ (verbose = true →
          dictFind (createBindEnv procEnv vars cacheDir verbose) "TF_LOG"
            = some "DEBUG")
      ∧ (verbose = false → dictFind procEnv "TF_LOG" = none →
          dictFind (createBindEnv procEnv vars cacheDir verbose) "TF_LOG" = none) := by
  refine ⟨?_, ?_, ?_, ?_, ?_⟩
  · intro key hkey
    unfold createBindEnv
    rw [dictFind_dictUpdate, tfAdds_filter_not_allowed vars cacheDir verbose key hkey]
    exact dictFind_filter_not procEnv is_allowed_env_var key hkey
  · intro vl hvl hnd k v hmem
    subst hvl
    unfold createBindEnv
    rw [dictFind_dictUpdate, tfAdds_filter_tfvar vl cacheDir verbose k v hnd hmem]
    rfl
  · unfold createBindEnv
    rw [dictFind_dictUpdate, tfAdds_filter_cache vars cacheDir verbose]
    rfl
  · intro hv
    subst hv
    unfold createBindEnv
    rw [dictFind_dictUpdate, tfAdds_filter_log vars cacheDir true]
    rfl
  · intro hv hnolog
    subst hv
    unfold createBindEnv
    rw [dictFind_dictUpdate, tfAdds_filter_log vars cacheDir false]
    exact dictFind_filter_of_none procEnv is_allowed_env_var "TF_LOG" hnolog

/-- C4 counterexample: with verbose mode disabled and a process
environment carrying `TF_LOG=DEBUG`, the subprocess environment still
contains `TF_LOG=DEBUG` (inherited through the `TF_` name-start rule), so
"`TF_LOG=DEBUG` exactly when verbose mode is enabled" is false. -/
theorem terraform_env_tflog_counterexample :
    dictFind (createBindEnv [("TF_LOG", "DEBUG")] none "/cache" false) "TF_LOG"
      = some "DEBUG" := by
  rfl

/-- C4 witness: on a concrete environment with one disallowed variable,
one import variable, the cache directory and verbose mode on, the four
positive guarantees of the amended statement evaluate as stated. -/
theorem terraform_env_allowlist_and_injection_witness :
    dictFind (createBindEnv [("SECRET_TOKEN", "x"), ("HOME", "/root")]
        (some [("region", "eu")]) "/cache" true) "SECRET_TOKEN" = none
      ∧ dictFind (createBindEnv [("SECRET_TOKEN", "x"), ("HOME", "/root")]
          (some [("region", "eu")]) "/cache" true) ("TF_VAR_" ++ "region")
          = some "eu"
      ∧ dictFind (createBindEnv [("SECRET_TOKEN", "x"), ("HOME", "/root")]
          (some [("region", "eu")]) "/cache" true) "TF_PLUGIN_CACHE_DIR"
          = some "/cache"
      ∧ dictFind (createBindEnv [("SECRET_TOKEN", "x"), ("HOME", "/root")]
          (some [("region", "eu")]) "/cache" true) "TF_LOG" = some "DEBUG" := by
  have h := terraform_env_allowlist_and_injection
    [("SECRET_TOKEN", "x"), ("HOME", "/root")] (some [("region", "eu")]) "/cache" true
  exact ⟨h.1 "SECRET_TOKEN" (by decide),
    h.2.1 [("region", "eu")] rfl (by decide) "region" "eu" (by decide),
    h.2.2.1, h.2.2.2.1 rfl⟩

/-! ### Resource scanner — `terranova/resources.py`, `ResourcesFinder`

The resource regex is applied by `re.findall`, an external library call: its
result is modelled as the list of matches, each a 4-tuple of captured
groups (whole optional comment, comment body, resource type, resource
name) with empty strings for an absent optional group — `findall` always
returns 4-tuples here, so the `len(resource_match) < 4` branch of the
source is dead code and has no counterpart.  `str.strip`, `str.splitlines`
and the anchored attribute regex `@(?P<attr_name>\S+)\s+(?P<attr_value>.+)`
are modelled character by character for the ASCII range; lines produced by
`splitlines` contain no line-break characters, so `.` (which matches
everything but a newline) can match every character of such a line. -/

/-- ASCII whitespace as `str.strip` / `\s` treat it. -/
def pyIsSpace (c : Char) : Bool :=
  c = ' ' || c = '\t' || c = '\n' || c = '\r' || c = '\x0b' || c = '\x0c'

/-- `s.strip()`. -/
def pyStrip (s : String) : String :=
  String.mk (((s.data.dropWhile pyIsSpace).reverse.dropWhile pyIsSpace).reverse)

/-- Accumulating splitter behind `pySplitlines`: splits on `\n`, `\r\n`,
`\r`, `\x0b`, `\x0c` without a trailing empty line. -/
def pySplitlinesAux : List Char → List Char → List (List Char)
  | [], acc => if acc.isEmpty then [] else [acc.reverse]
  | '\r' :: '\n' :: rest, acc => acc.reverse :: pySplitlinesAux rest []
  | c :: rest, acc =>
    if c = '\n' || c = '\r' || c = '\x0b' || c = '\x0c' then
      acc.reverse :: pySplitlinesAux rest []
    else pySplitlinesAux rest (c :: acc)

/-- `s.splitlines()`. -/
def pySplitlines (s : String) : List String :=
  (pySplitlinesAux s.data []).map String.mk

/-- `__RESOURCE_ATTR_PATTERN.match(line)` for
`@(?P<attr_name>\S+)\s+(?P<attr_value>.+)`: after `@`, the greedy `\S+`
takes the maximal non-whitespace run; `\s+` then needs at least one
whitespace character; the greedy `.+` takes the remainder when non-empty,
and otherwise backtracking hands it the last character of the whitespace
run (possible only when that run has length at least two). -/
def resourceAttrMatch (line : String) : Option (String × String) :=
  match line.data with
  | '@' :: rest =>
    let name := rest.takeWhile (fun c => !pyIsSpace c)
    let tail := rest.dropWhile (fun c => !pyIsSpace c)
    if name.isEmpty then none
    else
      let ws := tail.takeWhile pyIsSpace
      let value := tail.dropWhile pyIsSpace
      if ws.isEmpty then none
      else if !value.isEmpty then some (String.mk name, String.mk value)
      else if 2 ≤ ws.length then some (String.mk name, String.mk [ws.getLastD ' '])
      else none
  | _ => none

/-- A discovered `Resource`: name, type, and multi-valued attrs in
first-appearance key order. -/
structure Resource where
  name : String
  type : String
  attrs : List (String × List String)
deriving Repr

/-- A `Selector` filter (name, optional value). -/
structure Selector where
  name : String
  value : Option String
deriving Repr

/-- `Selector.match(resource)`: fails when a value is given, the attribute
exists and the value is not among the attribute's values, and fails when
the attribute is absent or empty (Python truthiness on both operands). -/
def Selector.match' (self : Selector) (r : Resource) : Bool :=
  let attrValue := dictFind r.attrs self.name
  if truthyOptStr self.value && truthyOptList attrValue
      && !((attrValue.getD []).contains (self.value.getD "")) then false
  else if !truthyOptList attrValue then false
  else true

/-- `attrs[name].append(value)` on a `defaultdict(list)`: appends to an
existing key's list in place, or appends a fresh singleton entry. -/
def addResourceAttr (attrs : List (String × List String)) (n v : String) :
    List (String × List String) :=
  match attrs with
  | [] => [(n, [v])]
  | (k, vs) :: rest =>
    if k = n then (k, vs ++ [v]) :: rest else (k, vs) :: addResourceAttr rest n v

/-- The attribute-parsing loop over the comment body's lines: matching
lines accumulate, non-matching lines are ignored. -/
def buildResourceAttrs (lines : List String) : List (String × List String) :=
  lines.foldl
    (fun attrs line =>
      match resourceAttrMatch line with
      | some nv => addResourceAttr attrs nv.1 nv.2
      | none => attrs) []

/-- One `re.findall` match of the resource pattern. -/
structure ResourceMatch where
  commentFull : String
  commentBody : String
  rtype : String
  rname : String
deriving Repr

/-- `InvalidResourcesError(cause, resolution)`. -/
structure InvalidResourcesError where
  cause : String
  resolution : String
deriving DecidableEq, Repr

/-- The error raised for an undocumented resource, with its exact
f-string cause. -/
def undocumentedResourceError (rtype rname path : String) : InvalidResourcesError :=
  { cause := "The resource `" ++ rtype ++ ":" ++ rname ++ "` at `" ++ path
      ++ "` isn't describe.",
    resolution := "Add metadata for the above resource." }

/-- `ResourcesFinder.find_in_file`: per match, an absent or
whitespace-only comment body fails the scan; otherwise the attribute lines
are parsed and the resource is kept when all selectors match. -/
def find_in_file (path : String) (selectors : List Selector) :
    List ResourceMatch → Except InvalidResourcesError (List Resource)
  | [] => .ok []
  | m :: rest =>
    let body := pyStrip m.commentBody
    if body.isEmpty then
      .error (undocumentedResourceError m.rtype m.rname path)
    else
      let attrs := buildResourceAttrs (pySplitlines body)
      let resource : Resource := ⟨m.rname, m.rtype, attrs⟩
      let keep := selectors.all (fun s => s.match' resource)
      match find_in_file path selectors rest with
      | .error e => .error e
      | .ok rs => .ok (if keep then resource :: rs else rs)

theorem dictFind_addResourceAttr (attrs : List (String × List String))
    (n v k : String) :
    dictFind (addResourceAttr attrs n v) k =
      if n = k then some ((dictFind attrs k).getD [] ++ [v])
      else dictFind attrs k := by
  induction attrs with
  | nil =>
    by_cases hk : n = k
    · simp [addResourceAttr, dictFind, hk]
    · simp [addResourceAttr, dictFind, hk]
  | cons kv rest ih =>
    obtain ⟨k', vs⟩ := kv
    by_cases hk' : k' = n
    · subst hk'
      by_cases hk : k' = k
      · subst hk
        simp [addResourceAttr, dictFind]
      · simp [addResourceAttr, dictFind, hk]
    · by_cases hk : k' = k
      · subst hk
        have hn : n ≠ k' := Ne.symm hk'
        simp [addResourceAttr, hk', dictFind, hn]
      · simp [addResourceAttr, hk', dictFind, hk, ih]

theorem buildResourceAttrs_fold (lines : List String)
    (attrs : List (String × List String)) (k : String) :
    dictFind
      (lines.foldl
        (fun attrs line =>
          match resourceAttrMatch line with
          | some nv => addResourceAttr attrs nv.1 nv.2
          | none => attrs) attrs) k
      = (if (((lines.filterMap resourceAttrMatch).filter
            (fun p => p.1 = k)).map Prod.snd).isEmpty then dictFind attrs k
         else some ((dictFind attrs k).getD []
           ++ ((lines.filterMap resourceAttrMatch).filter
             (fun p => p.1 = k)).map Prod.snd)) := by
  induction lines generalizing attrs with
  | nil => simp
  | cons line rest ih =>
    cases hm : resourceAttrMatch line with
    | none =>
      simp only [List.foldl_cons, hm, List.filterMap_cons]
      exact ih attrs
    | some nv =>
      obtain ⟨n, v⟩ := nv
      by_cases hn : n = k
      · subst hn
        have hfilter : (((line :: rest).filterMap resourceAttrMatch).filter
            (fun p => p.1 = n)).map Prod.snd
            = v :: (((rest.filterMap resourceAttrMatch).filter
              (fun p => p.1 = n)).map Prod.snd) := by
          simp [List.filterMap_cons, hm, List.filter_cons]
        simp only [List.foldl_cons, hm]
        rw [ih (addResourceAttr attrs n v), dictFind_addResourceAttr, hfilter]
        simp only [if_pos rfl, List.isEmpty_cons, Bool.false_eq_true, if_false]
        by_cases hrest : (((rest.filterMap resourceAttrMatch).filter
            (fun p => p.1 = n)).map Prod.snd).isEmpty = true
        · rw [if_pos hrest, List.isEmpty_iff.mp hrest]
          simp
        · rw [if_neg hrest]
          simp
      · have hfilter : (((line :: rest).filterMap resourceAttrMatch).filter
            (fun p => p.1 = k)).map Prod.snd
            = (((rest.filterMap resourceAttrMatch).filter
              (fun p => p.1 = k)).map Prod.snd) := by
          simp [List.filterMap_cons, hm, List.filter_cons, hn]
        rw [hfilter]
        simp only [List.foldl_cons, hm]
        rw [ih (addResourceAttr attrs n v), dictFind_addResourceAttr]
        simp [hn]

theorem find_in_file_first_error (path : String) (selectors : List Selector)
    (pre : List ResourceMatch) (m : ResourceMatch) (post : List ResourceMatch)
    (hm : (pyStrip m.commentBody).isEmpty = true)
    (hpre : ∀ m' ∈ pre, (pyStrip m'.commentBody).isEmpty = false) :
    find_in_file path selectors (pre ++ m :: post)
      = .error (undocumentedResourceError m.rtype m.rname path) := by
  induction pre with
  | nil => simp [find_in_file, hm]
  | cons m0 rest ih =>
    have hm0 : (pyStrip m0.commentBody).isEmpty = false :=
      hpre m0 (List.mem_cons_self m0 rest)
    have hrest := ih (fun m' hm' => hpre m' (List.mem_cons_of_mem m0 hm'))
    simp [find_in_file, hm0, hrest]

theorem find_in_file_ok (path : String) (selectors : List Selector)
    (ms : List ResourceMatch)
    (h : ∀ m ∈ ms, (pyStrip m.commentBody).isEmpty = false) :
    ∃ rs, find_in_file path selectors ms = .ok rs := by
  induction ms with
  | nil => exact ⟨[], rfl⟩
  | cons m rest ih =>
    have hm : (pyStrip m.commentBody).isEmpty = false :=
      h m (List.mem_cons_self m rest)
    obtain ⟨rs, hrs⟩ := ih (fun m' hm' => h m' (List.mem_cons_of_mem m hm'))
    have hcons : find_in_file path selectors (m :: rest)
        = .ok (if selectors.all (fun s => s.match'
            ⟨m.rname, m.rtype,
             buildResourceAttrs (pySplitlines (pyStrip m.commentBody))⟩) then
            (⟨m.rname, m.rtype,
              buildResourceAttrs (pySplitlines (pyStrip m.commentBody))⟩ : Resource)
              :: rs
          else rs) := by
      simp [find_in_file, hm, hrs]
    exact ⟨_, hcons⟩

/-- C7: scanning a file fails with the undocumented-resource error exactly
on matches whose preceding comment is absent or whitespace-only — the
error names the first such resource's type, name and file — while matches
with a non-empty comment never trigger it (a scan over only such matches
succeeds); within a comment body, each line matching `@name value`
appends its value to that attribute's list in order of appearance and
non-matching lines are silently ignored. -/
theorem scan_undocumented_and_attr_accumulation (path : String)
    (selectors : List Selector) (ms : List ResourceMatch) :
    ((∃ m ∈ ms, (pyStrip m.commentBody).isEmpty = true) →
        ∃ e, find_in_file path selectors ms = .error e)
      ∧ (∀ pre m post, ms = pre ++ m :: post →
          (pyStrip m.commentBody).isEmpty = true →
          (∀ m' ∈ pre, (pyStrip m'.commentBody).isEmpty = false) →
          find_in_file path selectors ms
            = .error (undocumentedResourceError m.rtype m.rname path))
      ∧ ((∀ m ∈ ms, (pyStrip m.commentBody).isEmpty = false) →
          ∃ rs, find_in_file path selectors ms = .ok rs)
      ∧ (∀ lines k, dictFind (buildResourceAttrs lines) k
          = (if (((lines.filterMap resourceAttrMatch).filter
                (fun p => p.1 = k)).map Prod.snd).isEmpty then none
             else some (((lines.filterMap resourceAttrMatch).filter
                (fun p => p.1 = k)).map Prod.snd))) := by
  refine ⟨?_, ?_, find_in_file_ok path selectors ms, ?_⟩
  · intro hex
    induction ms with
    | nil =>
      obtain ⟨m, hm, _⟩ := hex
      cases hm
    | cons m rest ih =>
      by_cases hm : (pyStrip m.commentBody).isEmpty = true
      · exact ⟨undocumentedResourceError m.rtype m.rname path,
          by simp [find_in_file, hm]⟩
      · have hm' : (pyStrip m.commentBody).isEmpty = false := by
          cases hcase : (pyStrip m.commentBody).isEmpty
          · rfl
          · exact absurd hcase hm
        have hex' : ∃ m' ∈ rest, (pyStrip m'.commentBody).isEmpty = true := by
          obtain ⟨m0, hmem, hempty⟩ := hex
          rcases List.mem_cons.mp hmem with rfl | htl
          · exact absurd hempty hm
          · exact ⟨m0, htl, hempty⟩
        obtain ⟨e, he⟩ := ih hex'
        exact ⟨e, by simp [find_in_file, hm', he]⟩
  · intro pre m post hms hm hpre
    rw [hms]
    exact find_in_file_first_error path selectors pre m post hm hpre
  · intro lines k
    have h := buildResourceAttrs_fold lines [] k
    simpa [buildResourceAttrs, dictFind] using h

/-- C7 witness: a single match with no preceding comment makes the scan
fail with the error naming exactly that resource and file, evaluated on a
concrete match list. -/
theorem scan_undocumented_witness :
    find_in_file "main.tf" [] [⟨"", "", "aws_s3_bucket", "logs"⟩]
      = .error (undocumentedResourceError "aws_s3_bucket" "logs" "main.tf") :=
  (scan_undocumented_and_attr_accumulation "main.tf" []
      [⟨"", "", "aws_s3_bucket", "logs"⟩]).2.1
    [] ⟨"", "", "aws_s3_bucket", "logs"⟩ [] rfl (by decide)
    (by intro m' hm'; cases hm')

/-! ### Runbook execution — `terranova/resources.py`, `ResourcesRunbook.exec`
and `terranova/commands/binds.py`, `runbook`

`exec` builds the spawned runbook's environment from scratch: the fixed
orchestrator-context variables (`TERRANOVA_PATH`, `TERRANOVA_CONF_DIR`,
`TERRANOVA_RUNBOOK_NAME`), the process's own `PATH` when set and non-empty,
and the manifest-declared entries — a truthy literal value directly,
otherwise forwarded from the process environment with
`MissingRunbookEnvError(name)` when absent or empty there.  Its signature
is `exec(self, path, workdir)`: it accepts no import variables, and none
enter the environment it builds, although the `runbook` command
(`terranova/commands/binds.py` line 621) computes `extract_import_vars`
and passes the result as a third positional argument. -/

/-- A declared runbook environment entry (`name`, optional literal
`value`). -/
structure ResourcesRunbookEnv where
  name : String
  value : Option String
deriving Repr

/-- A manifest runbook declaration. -/
structure ResourcesRunbook where
  name : String
  entrypoint : String
  workdir : Option String
  args : Option (List String)
  env : Option (List ResourcesRunbookEnv)
deriving Repr

/-- The declared-entry loop of `exec` (`for entry in self.env`): Python
truthiness makes an empty literal fall back to `os.getenv`, and an absent
or empty process value raises `MissingRunbookEnvError` with the entry's
name. -/
def runbookEnvEntries (procEnv : List (String × String)) :
    List ResourcesRunbookEnv → List (String × String) →
      Except String (List (String × String))
  | [], env => .ok env
  | e :: rest, env =>
    match e.value with
    | some v =>
      if !v.isEmpty then runbookEnvEntries procEnv rest (dictInsert env e.name v)
      else
        match dictFind procEnv e.name with
        | some w =>
          if !w.isEmpty then
            runbookEnvEntries procEnv rest (dictInsert env e.name w)
          else .error e.name
        | none => .error e.name
    | none =>
      match dictFind procEnv e.name with
      | some w =>
        if !w.isEmpty then runbookEnvEntries procEnv rest (dictInsert env e.name w)
        else .error e.name
      | none => .error e.name

/-- The fixed part of the runbook environment: the three orchestrator
context variables, plus `env["PATH"] = os.getenv("PATH")` when that is set
and non-empty. -/
def runbookBaseEnv (rbName path confDir : String)
    (procEnv : List (String × String)) : List (String × String) :=
  let env := [("TERRANOVA_PATH", path), ("TERRANOVA_CONF_DIR", confDir),
              ("TERRANOVA_RUNBOOK_NAME", rbName)]
  match dictFind procEnv "PATH" with
  | some p => if !p.isEmpty then dictInsert env "PATH" p else env
  | none => env

/-- The environment `ResourcesRunbook.exec` hands to the runbook
subprocess (`MissingRunbookEnvError` is carried as the missing variable's
name).  `if self.env:` makes a `None` and an empty entry list equivalent. -/
def ResourcesRunbook.execEnv (self : ResourcesRunbook) (path : String)
    (confDir : String) (procEnv : List (String × String)) :
    Except String (List (String × String)) :=
  match self.env with
  | some entries =>
    runbookEnvEntries procEnv entries (runbookBaseEnv self.name path confDir procEnv)
  | none => .ok (runbookBaseEnv self.name path confDir procEnv)

theorem runbookEnvEntries_find_none (procEnv : List (String × String))
    (entries : List ResourcesRunbookEnv) (env envOut : List (String × String))
    (k : String) (h : runbookEnvEntries procEnv entries env = .ok envOut)
    (henv : dictFind env k = none)
    (hk : k ∉ entries.map (fun e => e.name)) :
    dictFind envOut k = none := by
  induction entries generalizing env with
  | nil =>
    simp only [runbookEnvEntries] at h
    cases h
    exact henv
  | cons e rest ih =>
    have hkname : e.name ≠ k := by
      intro hh
      exact hk (hh ▸ List.mem_map.mpr ⟨e, List.mem_cons_self e rest, rfl⟩)
    have hkrest : k ∉ rest.map (fun e => e.name) := by
      intro hh
      rcases List.mem_map.mp hh with ⟨e', he', heq⟩
      exact hk (List.mem_map.mpr ⟨e', List.mem_cons_of_mem e he', heq⟩)
    have hins : ∀ w, dictFind (dictInsert env e.name w) k = none := by
      intro w
      rw [dictFind_dictInsert]
      simp [hkname, henv]
    cases hv : e.value with
    | some v =>
      simp only [runbookEnvEntries, hv] at h
      by_cases hve : (!v.isEmpty) = true
      · rw [if_pos hve] at h
        exact ih _ h (hins v) hkrest
      · rw [if_neg hve] at h
        cases hw : dictFind procEnv e.name with
        | some w =>
          simp only [hw] at h
          by_cases hwe : (!w.isEmpty) = true
          · rw [if_pos hwe] at h
            exact ih _ h (hins w) hkrest
          · rw [if_neg hwe] at h
            cases h
        | none =>
          simp only [hw] at h
          cases h
    | none =>
      simp only [runbookEnvEntries, hv] at h
      cases hw : dictFind procEnv e.name with
      | some w =>
        simp only [hw] at h
        by_cases hwe : (!w.isEmpty) = true
        · rw [if_pos hwe] at h
          exact ih _ h (hins w) hkrest
        · rw [if_neg hwe] at h
          cases h
      | none =>
        simp only [hw] at h
        cases h

theorem runbookBaseEnv_find_none (rbName path confDir : String)
    (procEnv : List (String × String)) (k : String)
    (h1 : k ≠ "TERRANOVA_PATH") (h2 : k ≠ "TERRANOVA_CONF_DIR")
    (h3 : k ≠ "TERRANOVA_RUNBOOK_NAME") (h4 : k ≠ "PATH") :
    dictFind (runbookBaseEnv rbName path confDir procEnv) k = none := by
  have henv : dictFind [("TERRANOVA_PATH", path), ("TERRANOVA_CONF_DIR", confDir),
      ("TERRANOVA_RUNBOOK_NAME", rbName)] k = none := by
    simp [dictFind, Ne.symm h1, Ne.symm h2, Ne.symm h3]
  cases hp : dictFind procEnv "PATH" with
  | some p =>
    simp only [runbookBaseEnv, hp]
    by_cases hpe : (!p.isEmpty) = true
    · rw [if_pos hpe, dictFind_dictInsert]
      simp [Ne.symm h4, henv]
    · rw [if_neg hpe]
      exact henv
  | none =>
    simp only [runbookBaseEnv, hp]
    exact henv

/-- C5 (code at the failing configuration): the environment built by
`ResourcesRunbook.exec` consists of the fixed orchestrator-context
variables, the forwarded `PATH`, and the manifest-declared entry names
only — every other variable, in particular each resolved import variable,
is absent from the runbook's environment, contradicting the claim (and the
caller, which computes `extract_import_vars` and passes the result to the
two-parameter `exec` as an unexpected third positional argument). -/
theorem runbook_env_excludes_import_vars (rb : ResourcesRunbook)
    (path confDir : String) (procEnv envOut : List (String × String))
    (k : String)
    (hok : rb.execEnv path confDir procEnv = .ok envOut)
    (h1 : k ≠ "TERRANOVA_PATH") (h2 : k ≠ "TERRANOVA_CONF_DIR")
    (h3 : k ≠ "TERRANOVA_RUNBOOK_NAME") (h4 : k ≠ "PATH")
    (hdecl : ∀ entries, rb.env = some entries →
      k ∉ entries.map (fun e => e.name)) :
    dictFind envOut k = none := by
  have hbase := runbookBaseEnv_find_none rb.name path confDir procEnv k h1 h2 h3 h4
  unfold ResourcesRunbook.execEnv at hok
  cases he : rb.env with
  | some entries =>
    simp only [he] at hok
    exact runbookEnvEntries_find_none procEnv entries _ envOut k hok hbase
      (hdecl entries he)
  | none =>
    simp only [he] at hok
    cases hok
    exact hbase

/-- The runbook used by the C5 witness: one declared entry forwarding
`TOKEN` from the process environment, no literal values. -/
def runbookCex : ResourcesRunbook :=
  ⟨"deploy", "./run.sh", none, none, some [⟨"TOKEN", none⟩]⟩

/-- C5 witness: evaluating `exec`'s environment for a concrete runbook
shows exactly the fixed variables, `PATH` and the declared entry — and no
binding for the resolved import variable `cluster_ip`, which the `runbook`
command resolved and tried to pass along. -/
theorem runbook_env_excludes_import_vars_witness :
    ResourcesRunbook.execEnv runbookCex "svc" "/conf"
        [("PATH", "/usr/bin"), ("TOKEN", "t0")]
      = .ok [("TERRANOVA_PATH", "svc"), ("TERRANOVA_CONF_DIR", "/conf"),
             ("TERRANOVA_RUNBOOK_NAME", "deploy"), ("PATH", "/usr/bin"),
             ("TOKEN", "t0")]
      ∧ dictFind [("TERRANOVA_PATH", "svc"), ("TERRANOVA_CONF_DIR", "/conf"),
          ("TERRANOVA_RUNBOOK_NAME", "deploy"), ("PATH", "/usr/bin"),
          ("TOKEN", "t0")] "cluster_ip" = none := by
  refine ⟨rfl, ?_⟩
  exact runbook_env_excludes_import_vars runbookCex "svc" "/conf"
    [("PATH", "/usr/bin"), ("TOKEN", "t0")]
    [("TERRANOVA_PATH", "svc"), ("TERRANOVA_CONF_DIR", "/conf"),
     ("TERRANOVA_RUNBOOK_NAME", "deploy"), ("PATH", "/usr/bin"),
     ("TOKEN", "t0")] "cluster_ip" rfl
    (by decide) (by decide) (by decide) (by decide)
    (by
      intro entries he
      cases he
      decide)

/-! ### Manifest loading — `terranova/resources.py`, `ResourcesManifest.from_file`

The filesystem and the YAML / JSON-schema libraries are externals: the
file's existence (as a regular file) and readability are booleans,
`yaml.safe_load` is an `Except Unit Yaml` (a `YAMLError`, or the parsed
document), the bundled-schema lookup `pkgutil.get_data` is a predicate on
version strings (`FileNotFoundError` exactly when it is false; the
repository bundles only `manifest_schema_v1.0.json`), and
`jsonschema.validate` is a predicate on (version, raw data).
`ResourcesManifest.from_dict` runs only after validation succeeds; success
is modelled as returning the selected version together with the validated
raw document that is deserialized. -/

/-- A parsed YAML document.  A scalar carries its Python `str()`
rendering — the only use made of a scalar is the f-string interpolation of
the version. -/
inductive Yaml where
  | null
  | scalar (s : String)
  | list (items : List Yaml)
  | map (entries : List (String × Yaml))
deriving Repr

/-- The `str()` rendering used by
`f"schemas/manifest_schema_v{version}.json"`.  Container renderings are
abbreviated: no bundled schema name matches a container rendering of any
form, so they never select a schema either way. -/
def yamlStr : Yaml → String
  | .null => "None"
  | .scalar s => s
  | .list _ => "[...]"
  | .map _ => "(dict)"

/-- The manifest-loading failure modes: the four errors of
`terranova/exceptions.py`, plus the uncaught Python `AttributeError` the
loader hits when the parsed document is not a mapping —
`data.get("version", "1.0")` is attribute access on the parse result, and
e.g. an empty manifest file parses to `None`, which has no `get`. -/
inductive ManifestLoadError where
  | missingManifestError
  | unreadableManifestError
  | invalidManifestError
  | versionManifestError (version : String)
  | attributeError
deriving DecidableEq, Repr

/-- `ResourcesManifest.from_file`: missing-file check
(`not path.exists() or not path.is_file()`), readability check
(`os.access(..., os.R_OK)`), YAML parse, `data.get("version", "1.0")`,
bundled-schema lookup keyed by the version string, schema validation of
the raw parsed data, then deserialization of that same raw data. -/
def from_file (exists_ readable : Bool) (parsed : Except Unit Yaml)
    (hasSchema : String → Bool) (validOk : String → Yaml → Bool) :
    Except ManifestLoadError (String × Yaml) :=
  if !exists_ then .error .missingManifestError
  else if !readable then .error .unreadableManifestError
  else
    match parsed with
    | .error _ => .error .invalidManifestError
    | .ok data =>
      match data with
      | .map entries =>
        let version := yamlStr ((dictFind entries "version").getD (.scalar "1.0"))
        if !hasSchema version then .error (.versionManifestError version)
        else if !validOk version (Yaml.map entries) then .error .invalidManifestError
        else .ok (version, Yaml.map entries)
      | _ => .error .attributeError

/-- C6: on the failing input — a manifest file that exists and is readable
but whose YAML content is empty (parsed document `None`) — the loader
crashes with an uncaught `AttributeError` instead of one of its four
documented errors; on mapping documents the four-error discrimination
behaves as the claim says: missing file, unreadable file, YAML error,
unknown version (here `9.9`), schema-invalid raw data, and a version-less
manifest validated against the `1.0` schema. -/
theorem manifest_empty_file_attribute_error :
    from_file true true (Except.ok Yaml.null) (fun v => v == "1.0")
        (fun _ _ => true)
      = .error .attributeError
    ∧ from_file false true (Except.ok Yaml.null) (fun v => v == "1.0")
        (fun _ _ => true)
      = .error .missingManifestError
    ∧ from_file true false (Except.ok Yaml.null) (fun v => v == "1.0")
        (fun _ _ => true)
      = .error .unreadableManifestError
    ∧ from_file true true (Except.error ()) (fun v => v == "1.0")
        (fun _ _ => true)
      = .error .invalidManifestError
    ∧ from_file true true (Except.ok (Yaml.map [("version", Yaml.scalar "9.9")]))
        (fun v => v == "1.0") (fun _ _ => true)
      = .error (.versionManifestError "9.9")
    ∧ from_file true true (Except.ok (Yaml.map [("metadata", Yaml.map [])]))
        (fun v => v == "1.0") (fun _ _ => false)
      = .error .invalidManifestError
    ∧ from_file true true (Except.ok (Yaml.map [("metadata", Yaml.map [])]))
        (fun v => v == "1.0") (fun _ _ => true)
      = .ok ("1.0", Yaml.map [("metadata", Yaml.map [])]) := by
  exact ⟨rfl, rfl, rfl, rfl, rfl, rfl, rfl⟩

end Terranova
